import Mathlib

/-!
Shallow embedding of the visual-scout frame sampling and grid composition
engine (the Python modules under visual_scout/), together with theorems
checking the natural-language specification against the code.

Conventions of the embedding:
* raster images (numpy/cv2/PIL buffers) are modelled as `Img`: a width, a
  height and a total pixel map; pixel values are triples of naturals;
* the SSIM computation (skimage structural_similarity composed with the cv2
  grayscale conversion) is a library call external to this repository, so
  every definition that needs it receives the score function
  `ssim : Img → Img → ℚ` as an explicit argument;
* Python floats are modelled as exact rationals;
* frame records carry their timestamps as integer second values; the strings
  stored by the source are recovered by the formatting functions
  (`formatTimedelta` for video records, `gifTimestampText` for GIF records),
  which are applied where the source reads the stored strings back.
-/

namespace VisualScout

/-- Pixel color: a channel triple, (r, g, b) for PIL RGB buffers or
(b, g, r) for cv2 decoded buffers. -/
abbrev Color := ℕ × ℕ × ℕ

/-- The white background color that create_grid uses for unfilled cells. -/
def white : Color := (255, 255, 255)

/-- A raster image: width, height and a total pixel map. -/
structure Img where
  w : ℕ
  h : ℕ
  pix : ℕ → ℕ → Color

/-- Model of PIL Image.paste: overwrite the box of size img.w by img.h with
top left corner (x0, y0) by the pixels of img, keep the canvas elsewhere. -/
def pasteImg (canvas : Img) (img : Img) (x0 y0 : ℕ) : Img :=
  { canvas with
    pix := fun x y =>
      if x0 ≤ x ∧ x < x0 + img.w ∧ y0 ≤ y ∧ y < y0 + img.h then
        img.pix (x - x0) (y - y0)
      else
        canvas.pix x y }

/-- Model of cv2.cvtColor with code COLOR_BGR2RGB: swap the first and third
channel of every pixel (flush_grid applies it to frames before pasting). -/
def bgr2rgb (img : Img) : Img :=
  { img with
    pix := fun x y => ((img.pix x y).2.2, (img.pix x y).2.1, (img.pix x y).1) }

/-- Two digit zero padding, as produced by a Python format spec of width two
with a zero fill. -/
def pad2 (n : ℕ) : String :=
  if n ≤ 9 then ("0" ++ toString n) else toString n

/-- Model of Python str applied to datetime.timedelta(seconds=s) for a natural
number of seconds: hours without padding, minutes and seconds zero padded,
and a day count prefix beyond 24 hours. -/
def formatTimedelta (total : ℕ) : String :=
  let days := total / 86400
  let rem := total % 86400
  let base := toString (rem / 3600) ++ ":" ++ pad2 (rem % 3600 / 60) ++ ":" ++ pad2 (rem % 60)
  if days = 0 then base
  else if days = 1 then ("1 day, " ++ base)
  else (toString days ++ " days, " ++ base)

/-- Model of the Python string method call that replaces every colon by a
dash, used to make timestamp tokens filename safe. -/
def replaceColons (s : String) : String :=
  String.mk (s.data.map (fun c => if c = ':' then '-' else c))

/-- Text of the GIF pseudo timestamp for a frame index: the index, zero padded
to two digits, placed in the seconds slot. -/
def gifTimestampText (i : ℕ) : String :=
  "00:00:" ++ pad2 i

/-- utils/gif_utils.format_gif_timestamp: identical start and end stamps for a
GIF frame index. -/
def format_gif_timestamp (frame_index : ℕ) : String × String :=
  (gifTimestampText frame_index, gifTimestampText frame_index)

/-- Modelled from the spec: the constants module imported as
visual_scout.constants (SAMPLING_INTERVAL) is not present under src, only its
importers are; the spec fixes the sampling interval default to 2 seconds. -/
def SAMPLING_INTERVAL : ℕ := 2

/-- Model of Python round(x, 2) on exact rationals: round 100 x to the nearest
integer and divide by 100. Mathlib round is round half up while Python rounds
half to even; the two agree away from exact two decimal ties, and every
theorem below that depends on this function stays away from such ties. -/
def roundTo2 (q : ℚ) : ℚ :=
  ((round (100 * q) : ℤ) : ℚ) / 100

/-- The timestamp variable of the video loops: round(frame_index / fps, 2). -/
def video_timestamp (fps : ℚ) (frame_index : ℕ) : ℚ :=
  roundTo2 ((frame_index : ℚ) / fps)

/-- Model of utils/media_utils.format_timestamps and of the identical inline
start/end computation of extract_frames_from_video: int truncation of the
rounded timestamp, and of the timestamp shifted by the sampling interval. The
source returns the str(timedelta(...)) rendering of these two second values;
the model keeps the seconds and formatTimedelta recovers the stored text. -/
def format_timestamps (timestamp : ℚ) (interval : ℕ) : ℕ × ℕ :=
  ((⌊timestamp⌋).toNat, (⌊timestamp + (interval : ℚ)⌋).toNat)

/-- Start second carried by the sampled video frame at a frame index. -/
def videoStartSec (fps : ℚ) (interval : ℕ) (frame_index : ℕ) : ℕ :=
  (format_timestamps (video_timestamp fps frame_index) interval).1

/-- End second carried by the sampled video frame at a frame index. -/
def videoEndSec (fps : ℚ) (interval : ℕ) (frame_index : ℕ) : ℕ :=
  (format_timestamps (video_timestamp fps frame_index) interval).2

/-- utils/frame_utils.make_frame_record, with timestamps as second values. -/
structure FrameRecord where
  image : Img
  start_time : ℕ
  end_time : ℕ

/-- Constructor wrapper matching the source helper of the same name. -/
def make_frame_record (image : Img) (start_time end_time : ℕ) : FrameRecord :=
  { image := image, start_time := start_time, end_time := end_time }

/-- utils/frame_utils.get_frame_similarity_ssim. The grayscale conversion and
the skimage SSIM call are external library code; their composite is the score
argument. The source returns False when either frame is missing and otherwise
returns the comparison of the score against the threshold. -/
def get_frame_similarity_ssim (ssim : Img → Img → ℚ) (frame_1 frame_2 : Option Img)
    (threshold : ℚ) : Bool :=
  match frame_1, frame_2 with
  | none, _ => false
  | _, none => false
  | some f1, some f2 => decide (threshold ≤ ssim f1 f2)

/-- utils/frame_utils.is_similar_frame: True means the candidate is judged
similar and is to be discarded. -/
def is_similar_frame (ssim : Img → Img → ℚ) (previous_frame : Option Img)
    (current_frame : Img) (threshold : ℚ) (use_static_sample_rate : Bool) : Bool :=
  if use_static_sample_rate || previous_frame.isNone then false
  else get_frame_similarity_ssim ssim previous_frame (some current_frame) threshold

/-- Integer ceiling square root: the least s with n at most s squared. The
source computes math.ceil(math.sqrt(num_images)) on floats; on the batch
sizes the composer produces the two agree. -/
def ceilSqrt (n : ℕ) : ℕ :=
  if n = 0 then 0 else Nat.sqrt (n - 1) + 1

/-- utils/grid_utils.create_grid (the copy in generate_grids.py is textually
identical): a white canvas of the optimal square cell dimension with the
images pasted row major, left to right then top to bottom. -/
def create_grid (images : List Img) (frame_width frame_height grid_dimension : ℕ) : Img :=
  if images.length = 0 then
    { w := frame_width, h := frame_height, pix := fun _ _ => white }
  else
    let raw_grid_size := ceilSqrt images.length
    let optimal_grid_dim := min grid_dimension raw_grid_size
    let init : Img :=
      { w := optimal_grid_dim * frame_width
        h := optimal_grid_dim * frame_height
        pix := fun _ _ => white }
    (images.enum).foldl
      (fun grid p =>
        pasteImg grid p.2 ((p.1 % optimal_grid_dim) * frame_width)
          ((p.1 / optimal_grid_dim) * frame_height))
      init

/-- Filename built by utils/grid_utils.save_grid. -/
def save_grid_filename (start_timestamp end_timestamp : String) : String :=
  "grid_" ++ start_timestamp ++ "_" ++ end_timestamp ++ ".jpg"

/-- Path of the grid image written by utils/grid_utils.save_grid, modelling
os.path.join by a slash. -/
def save_grid_path (output_directory start_timestamp end_timestamp : String) : String :=
  output_directory ++ "/" ++ save_grid_filename start_timestamp end_timestamp

/-- One persisted grid: the written image, its path, and the metadata
dictionary returned by flush_grid. -/
structure SavedGrid where
  path : String
  grid : Img
  start_timestamp : ℕ
  end_timestamp : ℕ
  num_images : ℕ

/-- generate_grids_from_source.flush_grid. The fmt argument renders a second
value into the timestamp text stored by the source records (formatTimedelta
for video, gifTimestampText for GIF). Returns the saved grids together with
the in place cleared buffer. Following the source exactly: the filename
combines the formatted start_time and end_time of the FIRST collected record
(index zero both times), while the returned metadata takes end_timestamp from
the LAST record. -/
def flush_grid (fmt : ℕ → String) (collected : List FrameRecord)
    (output_dir : String) (grid_dimension : ℕ) : List SavedGrid × List FrameRecord :=
  match collected with
  | [] => ([], [])
  | c0 :: rest =>
    let frame_width := c0.image.w
    let frame_height := c0.image.h
    let grid := create_grid ((c0 :: rest).map (fun f => bgr2rgb f.image))
      frame_width frame_height grid_dimension
    let start_time_formatted := replaceColons (fmt c0.start_time)
    let end_time_formatted := replaceColons (fmt c0.end_time)
    let path := save_grid_path output_dir start_time_formatted end_time_formatted
    ([{ path := path
        grid := grid
        start_timestamp := c0.start_time
        end_timestamp := ((c0 :: rest).getLast (List.cons_ne_nil c0 rest)).end_time
        num_images := (c0 :: rest).length }], [])

/-- Buffer and output of the streaming composer of generate_grids_from_source:
the per file collected list and the grids saved so far. -/
structure ComposerState where
  collected : List FrameRecord
  saved : List SavedGrid

/-- One retained frame arriving in the streaming loops of
generate_grids_from_source: append the record to the buffer and, when the
buffer length reaches frames_per_grid, seal and flush it. -/
def push_retained_frame (fmt : ℕ → String) (output_dir : String)
    (grid_dimension frames_per_grid : ℕ) (st : ComposerState)
    (record : FrameRecord) : ComposerState :=
  let collected := st.collected ++ [record]
  if collected.length = frames_per_grid then
    let flushed := flush_grid fmt collected output_dir grid_dimension
    { collected := flushed.2, saved := st.saved ++ flushed.1 }
  else
    { collected := collected, saved := st.saved }

/-- The composer pass of generate_grids_from_media_stream over a stream of
retained frame records: fold the push step from an empty buffer, then flush a
non empty trailing remainder at end of stream; frames_per_grid is the square
of grid_dimension. -/
def generate_grids_from_retained_stream (fmt : ℕ → String) (output_dir : String)
    (grid_dimension : ℕ) (retained : List FrameRecord) : List SavedGrid :=
  let st := retained.foldl
    (push_retained_frame fmt output_dir grid_dimension (grid_dimension ^ 2))
    { collected := [], saved := [] }
  st.saved ++ (flush_grid fmt st.collected output_dir grid_dimension).1

/-- The sampling and novelty filtering aspect of
generate_grids_from_source._generate_video_grids: visit the frame indices 0,
frame_interval, twice frame_interval, and so on below frame_count, seek to
min(index, frame_count - 1) and read (a readFrame value of none models a
failed read, which breaks the loop), keep the frame when is_similar_frame
says keep, and update most_recent_frame to every kept frame. The grid
flushing the source interleaves here only consumes the kept records and never
touches most_recent_frame, so it is modelled separately by
push_retained_frame over this list. The source loop does not terminate when
frame_interval is zero; the model returns the empty list there. -/
def videoRetainedAux (ssim : Img → Img → ℚ) (readFrame : ℕ → Option Img)
    (fps : ℚ) (interval : ℕ) (threshold : ℚ) (use_static_sample_rate : Bool)
    (frame_count frame_interval : ℕ) (frame_index : ℕ)
    (most_recent_frame : Option Img) : List FrameRecord :=
  if h : frame_index < frame_count ∧ 1 ≤ frame_interval then
    match readFrame (min frame_index (frame_count - 1)) with
    | none => []
    | some frame =>
      if is_similar_frame ssim most_recent_frame frame threshold use_static_sample_rate then
        videoRetainedAux ssim readFrame fps interval threshold use_static_sample_rate
          frame_count frame_interval (frame_index + frame_interval) most_recent_frame
      else
        make_frame_record frame (videoStartSec fps interval frame_index)
            (videoEndSec fps interval frame_index) ::
          videoRetainedAux ssim readFrame fps interval threshold use_static_sample_rate
            frame_count frame_interval (frame_index + frame_interval) (some frame)
  else []
termination_by frame_count - frame_index
decreasing_by
  all_goals (obtain ⟨h1, h2⟩ := h; omega)

/-- The sampling and novelty filtering aspect of
generate_grids_from_source._generate_gif_grids: sequential frame indices until
the first failing seek (n_frames is the frame count of the opened GIF), with
every SAMPLING_INTERVAL th index considered a candidate; a candidate frame is
the RGB conversion of the logical GIF frame, and its start and end stamps are
both the frame index. -/
def gifRetainedAux (ssim : Img → Img → ℚ) (n_frames : ℕ) (frames : ℕ → Img)
    (threshold : ℚ) (use_static_sample_rate : Bool) (frame_index : ℕ)
    (most_recent_frame : Option Img) : List FrameRecord :=
  if h : frame_index < n_frames then
    if frame_index % SAMPLING_INTERVAL = 0 then
      let frame_array := frames frame_index
      if is_similar_frame ssim most_recent_frame frame_array threshold use_static_sample_rate then
        gifRetainedAux ssim n_frames frames threshold use_static_sample_rate
          (frame_index + 1) most_recent_frame
      else
        make_frame_record frame_array frame_index frame_index ::
          gifRetainedAux ssim n_frames frames threshold use_static_sample_rate
            (frame_index + 1) (some frame_array)
    else
      gifRetainedAux ssim n_frames frames threshold use_static_sample_rate
        (frame_index + 1) most_recent_frame
  else []
termination_by n_frames - frame_index

/-- State of the extract_frames_from_video loop: the saved frame counter and
the pair variable most_recently_saved_frame, initialized to a pair of Nones. -/
structure ExtractState where
  saved_frames : ℕ
  most_recently_saved_frame : Option String × Option Img

/-- Frame filename built inline by extract_frames_from_video. -/
def video_frame_filename (fps : ℚ) (interval : ℕ) (frame_index : ℕ) : String :=
  "frame_" ++ replaceColons (formatTimedelta (videoStartSec fps interval frame_index)) ++
    "_" ++ replaceColons (formatTimedelta (videoEndSec fps interval frame_index)) ++ ".jpg"

/-- The save attempt of extract_frames_from_video: cv2.imwrite is modelled by
the oracle writeOk; on success the counter advances and the most recently
saved pair is replaced, on failure (a warning in the source) the state is
returned unchanged. -/
def video_save_update (writeOk : String → Img → Bool) (frame_path : String)
    (frame : Img) (st : ExtractState) : ExtractState :=
  if writeOk frame_path frame then
    { saved_frames := st.saved_frames + 1
      most_recently_saved_frame := (some frame_path, some frame) }
  else st

/-- The frame loop of extract_frames_from_video. Candidates sit at the indices
0, frame_interval, and so on below frame_count; a failed read breaks the
loop. The source guards the save with: most_recently_saved_frame is None or
not similar; that variable always holds a pair, never None, so the guard
reduces to the similarity test. The loop does not terminate when
frame_interval is zero; the model stops there. -/
def extract_video_loop (ssim : Img → Img → ℚ) (readFrame : ℕ → Option Img)
    (writeOk : String → Img → Bool) (output_dir : String) (fps : ℚ)
    (threshold : ℚ) (use_static_sample_rate : Bool)
    (frame_count frame_interval : ℕ) (frame_index : ℕ) (st : ExtractState) :
    ExtractState :=
  if h : frame_index < frame_count ∧ 1 ≤ frame_interval then
    match readFrame (min frame_index (frame_count - 1)) with
    | none => st
    | some frame =>
      let similar :=
        if use_static_sample_rate then false
        else get_frame_similarity_ssim ssim st.most_recently_saved_frame.2 (some frame) threshold
      let frame_path := output_dir ++ "/" ++
        video_frame_filename fps SAMPLING_INTERVAL frame_index
      let st1 := if similar then st else video_save_update writeOk frame_path frame st
      extract_video_loop ssim readFrame writeOk output_dir fps threshold
        use_static_sample_rate frame_count frame_interval
        (frame_index + frame_interval) st1
  else st
termination_by frame_count - frame_index
decreasing_by
  all_goals (obtain ⟨h1, h2⟩ := h; omega)

/-- extract_frames_from_video: run the loop when the video opens, then remove
the per file output directory exactly when no frame was saved. Returns the
saved count and whether the directory was removed. -/
def extract_frames_from_video (ssim : Img → Img → ℚ) (openOk : Bool)
    (readFrame : ℕ → Option Img) (writeOk : String → Img → Bool)
    (output_dir : String) (fps : ℚ) (threshold : ℚ)
    (use_static_sample_rate : Bool) (frame_count frame_interval : ℕ) : ℕ × Bool :=
  let saved_frames :=
    if openOk then
      (extract_video_loop ssim readFrame writeOk output_dir fps threshold
        use_static_sample_rate frame_count frame_interval 0
        { saved_frames := 0, most_recently_saved_frame := (none, none) }).saved_frames
    else 0
  (saved_frames, saved_frames == 0)

/-- Outcome of extract_frames_from_gif: the saved count, whether the function
removed the per file output directory before returning, and whether it raised
(the seek call on the None returned by a failed open_gif raises an attribute
error that the function does not catch). -/
structure GifExtractResult where
  frames_saved : ℕ
  dir_removed : Bool
  raised : Bool

/-- The frame loop of extract_frames_from_gif: sequential indices until the
first failing seek, every SAMPLING_INTERVAL th index is a candidate, a kept
candidate is saved (the PIL save call raises on failure rather than returning
a flag; success is assumed here) and becomes the most recently saved frame. -/
def gif_save_loop (ssim : Img → Img → ℚ) (n_frames : ℕ) (frames : ℕ → Img)
    (threshold : ℚ) (use_static_sample_rate : Bool) (frame_index : ℕ)
    (most_recent : Option Img) (frames_saved : ℕ) : ℕ :=
  if h : frame_index < n_frames then
    if frame_index % SAMPLING_INTERVAL = 0 then
      let current := frames frame_index
      let similar :=
        if use_static_sample_rate then false
        else get_frame_similarity_ssim ssim most_recent (some current) threshold
      if similar then
        gif_save_loop ssim n_frames frames threshold use_static_sample_rate
          (frame_index + 1) most_recent frames_saved
      else
        gif_save_loop ssim n_frames frames threshold use_static_sample_rate
          (frame_index + 1) (some current) (frames_saved + 1)
    else
      gif_save_loop ssim n_frames frames threshold use_static_sample_rate
        (frame_index + 1) most_recent frames_saved
  else frames_saved
termination_by n_frames - frame_index

/-- extract_frames_from_gif: a failed open (open_gif returns None) makes the
first seek raise, escaping the function; a successful open runs the save
loop. The source contains no directory cleanup on any path, unlike its video
counterpart, so dir_removed is False in every outcome. -/
def extract_frames_from_gif (ssim : Img → Img → ℚ)
    (gif : Option (ℕ × (ℕ → Img))) (threshold : ℚ)
    (use_static_sample_rate : Bool) : GifExtractResult :=
  match gif with
  | none => { frames_saved := 0, dir_removed := false, raised := true }
  | some g =>
    { frames_saved := gif_save_loop ssim g.1 g.2 threshold use_static_sample_rate 0 none 0
      dir_removed := false
      raised := false }

/-- Comparison definition following the words of the spec for the bypass
claim: the records of ALL sampled candidates of a video stream, with no
novelty filtering at all. -/
def allCandidateRecordsSpec (readFrame : ℕ → Option Img) (fps : ℚ)
    (interval : ℕ) (frame_count frame_interval : ℕ) (frame_index : ℕ) :
    List FrameRecord :=
  if h : frame_index < frame_count ∧ 1 ≤ frame_interval then
    match readFrame (min frame_index (frame_count - 1)) with
    | none => []
    | some frame =>
      make_frame_record frame (videoStartSec fps interval frame_index)
          (videoEndSec fps interval frame_index) ::
        allCandidateRecordsSpec readFrame fps interval frame_count frame_interval
          (frame_index + frame_interval)
  else []
termination_by frame_count - frame_index
decreasing_by
  all_goals (obtain ⟨h1, h2⟩ := h; omega)

/-- A concrete one by one image used by the witness theorems. -/
def unitImg : Img :=
  { w := 1, h := 1, pix := fun _ _ => white }

/-- C1: with bypass false and a prior retained frame present, is_similar_frame
returns True (discard) exactly when the SSIM score of the held frame and the
candidate reaches the threshold, and False (keep) exactly when the score is
below the threshold, for every pair of frames and every threshold value. -/
theorem c1_similarity_gate (ssim : Img → Img → ℚ) (held candidate : Img)
    (threshold : ℚ) :
    is_similar_frame ssim (some held) candidate threshold false
      = decide (threshold ≤ ssim held candidate) := by
  simp [is_similar_frame, get_frame_similarity_ssim]

/-- With the bypass flag set, videoRetainedAux keeps every readable sampled
candidate: it agrees with the comparison list of all candidate records. -/
theorem videoRetained_bypass_eq_all (ssim : Img → Img → ℚ)
    (readFrame : ℕ → Option Img) (fps : ℚ) (interval : ℕ) (threshold : ℚ)
    (fc Δ i : ℕ) (m : Option Img) :
    videoRetainedAux ssim readFrame fps interval threshold true fc Δ i m
      = allCandidateRecordsSpec readFrame fps interval fc Δ i := by
  rw [videoRetainedAux, allCandidateRecordsSpec]
  by_cases h : i < fc ∧ 1 ≤ Δ
  · rw [dif_pos h, dif_pos h]
    cases hr : readFrame (min i (fc - 1)) with
    | none => rfl
    | some frame =>
      have hsim : is_similar_frame ssim m frame threshold true = false := by
        simp [is_similar_frame]
      simp only [hsim, Bool.false_eq_true, if_false]
      exact congrArg _
        (videoRetained_bypass_eq_all ssim readFrame fps interval threshold fc Δ
          (i + Δ) (some frame))
  · rw [dif_neg h, dif_neg h]
termination_by fc - i
decreasing_by
  all_goals omega

/-- With the bypass flag set and a write oracle that always succeeds, the
extract loop saves one frame per readable sampled candidate. -/
theorem extract_loop_bypass_count (ssim : Img → Img → ℚ)
    (readFrame : ℕ → Option Img) (writeOk : String → Img → Bool)
    (output_dir : String) (fps : ℚ) (interval : ℕ) (threshold : ℚ)
    (fc Δ : ℕ) (hwrite : ∀ p f, writeOk p f = true) (i : ℕ) (st : ExtractState) :
    (extract_video_loop ssim readFrame writeOk output_dir fps threshold true
        fc Δ i st).saved_frames
      = st.saved_frames
        + (allCandidateRecordsSpec readFrame fps interval fc Δ i).length := by
  rw [extract_video_loop, allCandidateRecordsSpec]
  by_cases h : i < fc ∧ 1 ≤ Δ
  · rw [dif_pos h, dif_pos h]
    cases hr : readFrame (min i (fc - 1)) with
    | none => simp
    | some frame =>
      simp only []
      rw [video_save_update, hwrite]
      simp only [if_true, Bool.if_true_left, Bool.if_false_left]
      rw [extract_loop_bypass_count ssim readFrame writeOk output_dir fps interval
        threshold fc Δ hwrite (i + Δ)]
      simp only [Bool.false_eq_true, if_false, List.length_cons]
      omega
  · rw [dif_neg h, dif_neg h]
    simp
termination_by fc - i
decreasing_by
  all_goals omega

/-- C2: when the retention state holds no prior frame, the novelty decision is
keep for every candidate, every threshold and every bypass flag; consequently
over a non empty video stream the first readable candidate is always
retained: the head of the retained stream is the record of frame index 0. -/
theorem c2_first_frame_always_kept (ssim : Img → Img → ℚ)
    (readFrame : ℕ → Option Img) (fps threshold : ℚ)
    (interval frame_count frame_interval : ℕ) (bypass : Bool) (frame : Img)
    (hread : readFrame 0 = some frame)
    (hfc : 0 < frame_count) (hstep : 1 ≤ frame_interval) :
    (∀ candidate : Img, ∀ t : ℚ, ∀ b : Bool,
        is_similar_frame ssim none candidate t b = false) ∧
      (videoRetainedAux ssim readFrame fps interval threshold bypass
            frame_count frame_interval 0 none).head? =
        some (make_frame_record frame (videoStartSec fps interval 0)
          (videoEndSec fps interval 0)) := by
  refine ⟨fun candidate t b => by simp [is_similar_frame], ?_⟩
  rw [videoRetainedAux, dif_pos ⟨hfc, hstep⟩]
  have hmin : min 0 (frame_count - 1) = 0 := by omega
  rw [hmin, hread]
  simp [is_similar_frame]

/-- Witness for C2 at a one frame video stream. -/
theorem c2_first_frame_always_kept_witness :
    ((fun _ : ℕ => some unitImg) 0 = some unitImg) ∧ (0 < 1 ∧ 1 ≤ 1) ∧
      ((∀ candidate : Img, ∀ t : ℚ, ∀ b : Bool,
          is_similar_frame (fun _ _ => 0) none candidate t b = false) ∧
        (videoRetainedAux (fun _ _ => 0) (fun _ : ℕ => some unitImg) 1 2 1 false
              1 1 0 none).head? =
          some (make_frame_record unitImg (videoStartSec 1 2 0) (videoEndSec 1 2 0))) :=
  ⟨rfl, ⟨by decide, by decide⟩,
    c2_first_frame_always_kept (fun _ _ => 0) (fun _ => some unitImg) 1 1 2 1 1
      false unitImg rfl (by decide) (by decide)⟩

/-- C3: with static sampling (bypass) enabled the novelty decision is keep for
every candidate, every retention state and every threshold, and nothing is
ever discarded over a stream: the retained records are exactly all sampled
candidate records, and, when every write succeeds, the extract loop saves one
frame per candidate. -/
theorem c3_bypass_keeps_every_candidate (ssim : Img → Img → ℚ)
    (readFrame : ℕ → Option Img) (writeOk : String → Img → Bool)
    (output_dir : String) (fps threshold : ℚ)
    (interval frame_count frame_interval : ℕ) (m : Option Img)
    (hwrite : ∀ p f, writeOk p f = true) :
    (∀ prev : Option Img, ∀ candidate : Img, ∀ t : ℚ,
        is_similar_frame ssim prev candidate t true = false) ∧
      videoRetainedAux ssim readFrame fps interval threshold true
          frame_count frame_interval 0 m
        = allCandidateRecordsSpec readFrame fps interval frame_count frame_interval 0 ∧
      (extract_video_loop ssim readFrame writeOk output_dir fps threshold true
            frame_count frame_interval 0
            { saved_frames := 0, most_recently_saved_frame := (none, none) }).saved_frames
        = (allCandidateRecordsSpec readFrame fps interval frame_count frame_interval 0).length := by
  refine ⟨fun prev candidate t => by simp [is_similar_frame], ?_, ?_⟩
  · exact videoRetained_bypass_eq_all ssim readFrame fps interval threshold
      frame_count frame_interval 0 m
  · simpa using extract_loop_bypass_count ssim readFrame writeOk output_dir fps
      interval threshold frame_count frame_interval hwrite 0
      { saved_frames := 0, most_recently_saved_frame := (none, none) }

/-- Witness for C3 on a two candidate stream with an always succeeding write
oracle. -/
theorem c3_bypass_keeps_every_candidate_witness :
    (∀ p : String, ∀ f : Img, (fun _ _ => true : String → Img → Bool) p f = true) ∧
      ((∀ prev : Option Img, ∀ candidate : Img, ∀ t : ℚ,
          is_similar_frame (fun _ _ => 1) prev candidate t true = false) ∧
        videoRetainedAux (fun _ _ => 1) (fun _ => some unitImg) 1 2 1 true 2 1 0 none
          = allCandidateRecordsSpec (fun _ => some unitImg) 1 2 2 1 0 ∧
        (extract_video_loop (fun _ _ => 1) (fun _ => some unitImg) (fun _ _ => true)
              ("out") 1 1 true 2 1 0
              { saved_frames := 0, most_recently_saved_frame := (none, none) }).saved_frames
          = (allCandidateRecordsSpec (fun _ => some unitImg) 1 2 2 1 0).length) :=
  ⟨fun _ _ => rfl,
    c3_bypass_keeps_every_candidate (fun _ _ => 1) (fun _ => some unitImg)
      (fun _ _ => true) ("out") 1 1 2 2 1 none (fun _ _ => rfl)⟩

/-- C7: the video extractor encodes removal of its per file directory exactly
when zero frames were saved (so an unreadable video yields zero frames and a
removed directory), but the GIF extractor never removes the directory: at the
failing input of an unreadable GIF (open_gif returned None) the pipeline
retains zero frames, raises out of the seek call, and leaves the empty per
file directory behind. -/
theorem c7_gif_zero_frames_leaves_directory (ssim : Img → Img → ℚ)
    (openOk : Bool) (readFrame : ℕ → Option Img) (writeOk : String → Img → Bool)
    (output_dir : String) (fps threshold : ℚ) (bypass : Bool) (fc Δ : ℕ)
    (gif : Option (ℕ × (ℕ → Img))) :
    ((extract_frames_from_video ssim openOk readFrame writeOk output_dir fps
          threshold bypass fc Δ).2
        = ((extract_frames_from_video ssim openOk readFrame writeOk output_dir fps
          threshold bypass fc Δ).1 == 0)) ∧
      (extract_frames_from_video ssim false readFrame writeOk output_dir fps
          threshold bypass fc Δ = (0, true)) ∧
      (extract_frames_from_gif ssim none threshold bypass).frames_saved = 0 ∧
      (extract_frames_from_gif ssim none threshold bypass).raised = true ∧
      (extract_frames_from_gif ssim gif threshold bypass).dir_removed = false := by
  refine ⟨rfl, rfl, rfl, rfl, ?_⟩
  cases gif <;> rfl

/-- C10: a failed frame write leaves the extract pipeline state unchanged:
when the write oracle refuses the filename generated for the candidate, the
loop state after processing that candidate equals the state before it - the
saved count is not incremented and the most recently saved pair is untouched,
so every later candidate is still compared against the last successfully
written frame. -/
theorem c10_failed_write_leaves_state (ssim : Img → Img → ℚ)
    (readFrame : ℕ → Option Img) (writeOk : String → Img → Bool)
    (output_dir : String) (fps threshold : ℚ) (bypass : Bool)
    (fc Δ i : ℕ) (st : ExtractState) (frame : Img)
    (hread : readFrame (min i (fc - 1)) = some frame)
    (hw : writeOk (output_dir ++ "/" ++ video_frame_filename fps SAMPLING_INTERVAL i)
      frame = false)
    (hi : i < fc) (hstep : 1 ≤ Δ) :
    extract_video_loop ssim readFrame writeOk output_dir fps threshold bypass
        fc Δ i st
      = extract_video_loop ssim readFrame writeOk output_dir fps threshold bypass
        fc Δ (i + Δ) st
      ∧ video_save_update writeOk
          (output_dir ++ "/" ++ video_frame_filename fps SAMPLING_INTERVAL i)
          frame st = st := by
  have hupd : video_save_update writeOk
      (output_dir ++ "/" ++ video_frame_filename fps SAMPLING_INTERVAL i)
      frame st = st := by
    rw [video_save_update, hw]
    simp
  refine ⟨?_, hupd⟩
  conv_lhs => rw [extract_video_loop]
  rw [dif_pos ⟨hi, hstep⟩, hread]
  simp only []
  rw [hupd, ite_self]

/-- Witness for C10 with a write oracle that always fails. -/
theorem c10_failed_write_leaves_state_witness :
    ((fun _ : ℕ => some unitImg) (min 0 (1 - 1)) = some unitImg) ∧
      ((fun _ _ => false : String → Img → Bool)
          (("out") ++ "/" ++ video_frame_filename 1 SAMPLING_INTERVAL 0) unitImg
        = false) ∧ (0 < 1 ∧ 1 ≤ 1) ∧
      (extract_video_loop (fun _ _ => 0) (fun _ => some unitImg) (fun _ _ => false)
            ("out") 1 0 false 1 1 0
            { saved_frames := 0, most_recently_saved_frame := (none, none) }
          = extract_video_loop (fun _ _ => 0) (fun _ => some unitImg)
            (fun _ _ => false) ("out") 1 0 false 1 1 (0 + 1)
            { saved_frames := 0, most_recently_saved_frame := (none, none) }
        ∧ video_save_update (fun _ _ => false)
            (("out") ++ "/" ++ video_frame_filename 1 SAMPLING_INTERVAL 0) unitImg
            { saved_frames := 0, most_recently_saved_frame := (none, none) }
          = { saved_frames := 0, most_recently_saved_frame := (none, none) }) :=
  ⟨rfl, rfl, ⟨by decide, by decide⟩,
    c10_failed_write_leaves_state (fun _ _ => 0) (fun _ => some unitImg)
      (fun _ _ => false) ("out") 1 0 false 1 1 0
      { saved_frames := 0, most_recently_saved_frame := (none, none) } unitImg
      rfl rfl (by decide) (by decide)⟩

/-- flush_grid always returns an empty buffer (the source clears the list in
place when it is non empty and leaves the empty list alone). -/
theorem flush_grid_snd_nil (fmt : ℕ → String) (c : List FrameRecord)
    (output_dir : String) (N : ℕ) : (flush_grid fmt c output_dir N).2 = [] := by
  cases c <;> rfl

/-- A non empty flush produces exactly one grid whose member count is the
batch size. -/
theorem flush_grid_num_images (fmt : ℕ → String) (c : List FrameRecord)
    (output_dir : String) (N : ℕ) (h : c ≠ []) :
    (flush_grid fmt c output_dir N).1.map SavedGrid.num_images = [c.length] := by
  cases c with
  | nil => exact absurd rfl h
  | cons c0 rest => rfl

/-- Folding the push step over too few frames to fill a batch only extends
the buffer and seals nothing. -/
theorem foldl_push_partial (fmt : ℕ → String) (output_dir : String) (N fpg : ℕ)
    (l buf : List FrameRecord) (saved : List SavedGrid)
    (hlen : buf.length + l.length < fpg) :
    l.foldl (push_retained_frame fmt output_dir N fpg)
        { collected := buf, saved := saved }
      = { collected := buf ++ l, saved := saved } := by
  induction l generalizing buf with
  | nil => simp
  | cons a l ih =>
    rw [List.foldl_cons]
    have hne2 : (buf ++ [a]).length ≠ fpg := by
      simp only [List.length_append, List.length_singleton]
      simp only [List.length_cons] at hlen
      omega
    simp only [push_retained_frame]
    rw [if_neg hne2]
    rw [ih (buf ++ [a]) (by
      simp only [List.length_append, List.length_singleton]
      simp only [List.length_cons] at hlen
      omega)]
    simp

/-- Folding the push step over exactly enough frames to fill a batch seals
exactly that batch and empties the buffer. -/
theorem foldl_push_fill (fmt : ℕ → String) (output_dir : String) (N fpg : ℕ)
    (l buf : List FrameRecord) (saved : List SavedGrid)
    (hlen : buf.length + l.length = fpg) (hne : l ≠ []) :
    l.foldl (push_retained_frame fmt output_dir N fpg)
        { collected := buf, saved := saved }
      = { collected := [],
          saved := saved ++ (flush_grid fmt (buf ++ l) output_dir N).1 } := by
  induction l generalizing buf saved with
  | nil => exact absurd rfl hne
  | cons a l ih =>
    rw [List.foldl_cons]
    by_cases hl : l = []
    · subst hl
      have hfull : (buf ++ [a]).length = fpg := by
        simp only [List.length_cons, List.length_nil] at hlen
        simp only [List.length_append, List.length_singleton]
        omega
      simp only [push_retained_frame]
      rw [if_pos hfull]
      simp [flush_grid_snd_nil]
    · have hgt : 1 ≤ l.length := by
        cases l with
        | nil => exact absurd rfl hl
        | cons b t => simp
      have hne2 : (buf ++ [a]).length ≠ fpg := by
        simp only [List.length_append, List.length_singleton]
        simp only [List.length_cons] at hlen
        omega
      simp only [push_retained_frame]
      rw [if_neg hne2]
      rw [ih (buf ++ [a]) saved (by
        simp only [List.length_append, List.length_singleton]
        simp only [List.length_cons] at hlen
        omega) hl]
      simp

/-- C5 counterexample: with grid dimension one (so one frame per grid),
pushing two retained frames - the square of the dimension plus one - seals
TWO full batches and leaves the buffer empty, not one sealed batch with one
frame left buffered as the claim states for every dimension at least one. -/
theorem c5_counterexample_dimension_one :
    (([make_frame_record unitImg 0 2, make_frame_record unitImg 2 4].foldl
          (push_retained_frame formatTimedelta ("out") 1 (1 ^ 2))
          { collected := [], saved := [] }).saved.length = 2 ∧
        ([make_frame_record unitImg 0 2, make_frame_record unitImg 2 4].foldl
          (push_retained_frame formatTimedelta ("out") 1 (1 ^ 2))
          { collected := [], saved := [] }).collected = []) ∧
      ¬ (([make_frame_record unitImg 0 2, make_frame_record unitImg 2 4].foldl
            (push_retained_frame formatTimedelta ("out") 1 (1 ^ 2))
            { collected := [], saved := [] }).saved.length = 1 ∧
          ([make_frame_record unitImg 0 2, make_frame_record unitImg 2 4].foldl
            (push_retained_frame formatTimedelta ("out") 1 (1 ^ 2))
            { collected := [], saved := [] }).collected.length = 1) := by
  refine ⟨⟨by decide, rfl⟩, by decide⟩

/-- C5 amended: pushing exactly N squared retained frames seals exactly one
full batch and leaves an empty buffer, with no remainder at end of stream,
for every dimension at least one; pushing N squared plus one frames seals one
full batch, leaves exactly one frame buffered, and the end of stream flush
emits it as a remainder batch of size one - the latter for every dimension at
least TWO, since with dimension one the extra push immediately seals a second
full batch (see the counterexample). -/
theorem c5_batch_boundary_amended (fmt : ℕ → String) (output_dir : String)
    (N : ℕ) (l2 : List FrameRecord) (hN : 2 ≤ N) (h2 : l2.length = N ^ 2 + 1) :
    (∀ M : ℕ, ∀ l1 : List FrameRecord, 1 ≤ M → l1.length = M ^ 2 →
        (l1.foldl (push_retained_frame fmt output_dir M (M ^ 2))
              { collected := [], saved := [] }).collected = [] ∧
          (l1.foldl (push_retained_frame fmt output_dir M (M ^ 2))
              { collected := [], saved := [] }).saved.map SavedGrid.num_images
            = [M ^ 2] ∧
          (generate_grids_from_retained_stream fmt output_dir M l1).map
              SavedGrid.num_images = [M ^ 2]) ∧
      ((l2.foldl (push_retained_frame fmt output_dir N (N ^ 2))
            { collected := [], saved := [] }).saved.map SavedGrid.num_images
          = [N ^ 2] ∧
        (l2.foldl (push_retained_frame fmt output_dir N (N ^ 2))
            { collected := [], saved := [] }).collected.length = 1 ∧
        (generate_grids_from_retained_stream fmt output_dir N l2).map
            SavedGrid.num_images = [N ^ 2, 1]) := by
  constructor
  · intro M l1 hM hlen1
    have hpos : 0 < M ^ 2 := pow_pos (by omega) 2
    have hne : l1 ≠ [] := by
      intro hnil
      rw [hnil] at hlen1
      simp at hlen1
      omega
    have hfill := foldl_push_fill fmt output_dir M (M ^ 2) l1 [] []
      (by simpa using hlen1) hne
    refine ⟨by rw [hfill], ?_, ?_⟩
    · rw [hfill]
      simpa [flush_grid_num_images fmt l1 output_dir M hne] using hlen1
    · simp only [generate_grids_from_retained_stream]
      rw [hfill]
      simp only [List.nil_append]
      rw [flush_grid]
      simpa [flush_grid_num_images fmt l1 output_dir M hne] using hlen1
  · have hN4 : 4 ≤ N ^ 2 := by
      calc (4 : ℕ) = 2 ^ 2 := by norm_num
      _ ≤ N ^ 2 := Nat.pow_le_pow_left hN 2
    have htlen : (l2.take (N ^ 2)).length = N ^ 2 := by
      rw [List.length_take, h2]
      omega
    have hdlen : (l2.drop (N ^ 2)).length = 1 := by
      rw [List.length_drop, h2]
      omega
    have htne : l2.take (N ^ 2) ≠ [] := by
      intro hnil
      rw [hnil] at htlen
      simp at htlen
      omega
    obtain ⟨d0, hd0⟩ := List.length_eq_one.mp hdlen
    have hsplit : l2 = l2.take (N ^ 2) ++ [d0] := by
      conv_lhs => rw [← List.take_append_drop (N ^ 2) l2]
      rw [hd0]
    have hfill := foldl_push_fill fmt output_dir N (N ^ 2) (l2.take (N ^ 2)) [] []
      (by simpa using htlen) htne
    have hone : (([] : List FrameRecord) ++ [d0]).length ≠ N ^ 2 := by
      simp
      omega
    have hfold : l2.foldl (push_retained_frame fmt output_dir N (N ^ 2))
        { collected := [], saved := [] }
      = { collected := [d0],
          saved := (flush_grid fmt (l2.take (N ^ 2)) output_dir N).1 } := by
      conv_lhs => rw [hsplit]
      rw [List.foldl_append, hfill]
      simp only [List.foldl_cons, List.foldl_nil, List.nil_append]
      simp only [push_retained_frame]
      rw [if_neg (by simpa using hone)]
      simp
    refine ⟨?_, ?_, ?_⟩
    · rw [hfold]
      simp only []
      rw [flush_grid_num_images fmt _ output_dir N (by simpa using htne)]
      rw [htlen]
    · rw [hfold]
      rfl
    · simp only [generate_grids_from_retained_stream]
      rw [hfold]
      simp only [List.map_append]
      rw [flush_grid_num_images fmt _ output_dir N (by simpa using htne)]
      rw [flush_grid_num_images fmt [d0] output_dir N (by simp)]
      simp only [List.length_singleton]
      rw [show ([] : List FrameRecord) ++ l2.take (N ^ 2) = l2.take (N ^ 2) by simp] at *
      rw [htlen]
      rfl

/-- Witness for the amended C5 at dimension two with five pushed frames. -/
theorem c5_batch_boundary_amended_witness :
    (2 ≤ 2 ∧ (List.replicate 5 (make_frame_record unitImg 0 2)).length = 2 ^ 2 + 1) ∧
      ((∀ M : ℕ, ∀ l1 : List FrameRecord, 1 ≤ M → l1.length = M ^ 2 →
          (l1.foldl (push_retained_frame formatTimedelta ("out") M (M ^ 2))
                { collected := [], saved := [] }).collected = [] ∧
            (l1.foldl (push_retained_frame formatTimedelta ("out") M (M ^ 2))
                { collected := [], saved := [] }).saved.map SavedGrid.num_images
              = [M ^ 2] ∧
            (generate_grids_from_retained_stream formatTimedelta ("out") M l1).map
                SavedGrid.num_images = [M ^ 2]) ∧
        (((List.replicate 5 (make_frame_record unitImg 0 2)).foldl
              (push_retained_frame formatTimedelta ("out") 2 (2 ^ 2))
              { collected := [], saved := [] }).saved.map SavedGrid.num_images
            = [2 ^ 2] ∧
          ((List.replicate 5 (make_frame_record unitImg 0 2)).foldl
              (push_retained_frame formatTimedelta ("out") 2 (2 ^ 2))
              { collected := [], saved := [] }).collected.length = 1 ∧
          (generate_grids_from_retained_stream formatTimedelta ("out") 2
              (List.replicate 5 (make_frame_record unitImg 0 2))).map
              SavedGrid.num_images = [2 ^ 2, 1])) :=
  ⟨⟨by decide, by decide⟩,
    c5_batch_boundary_amended formatTimedelta ("out") 2
      (List.replicate 5 (make_frame_record unitImg 0 2)) (by decide) (by decide)⟩

/-- C6: at a sealed two member batch the streaming composer derives the grid
filename from the start AND end stamps of the FIRST member, not of the last:
records covering seconds 0 to 2 and 2 to 4 yield the path
grid_0-00-00_0-00-02.jpg, while the metadata of the same flush reports the
end stamp 4 of the last member, so the name the claim requires,
grid_0-00-00_0-00-04.jpg, is not the one written. -/
theorem c6_flush_filename_uses_first_end :
    (flush_grid formatTimedelta
          [make_frame_record unitImg 0 2, make_frame_record unitImg 2 4]
          ("out") 3).1.map SavedGrid.path
        = [("out/grid_0-00-00_0-00-02.jpg")] ∧
      (flush_grid formatTimedelta
          [make_frame_record unitImg 0 2, make_frame_record unitImg 2 4]
          ("out") 3).1.map SavedGrid.end_timestamp = [4] ∧
      formatTimedelta 4 = "0:00:04" ∧
      ("out/grid_0-00-00_0-00-02.jpg" : String) ≠ ("out/grid_0-00-00_0-00-04.jpg") := by
  refine ⟨by decide, by decide, by decide, by decide⟩

/-- The two decimal rounding is monotone. -/
theorem roundTo2_mono {a b : ℚ} (h : a ≤ b) : roundTo2 a ≤ roundTo2 b := by
  unfold roundTo2
  have hr : ((round (100 * a) : ℤ) : ℚ) ≤ ((round (100 * b) : ℤ) : ℚ) := by
    have h1 : round (100 * a) ≤ round (100 * b) := by
      rw [round_eq, round_eq]
      exact Int.floor_le_floor (by linarith)
    exact_mod_cast h1
  linarith

/-- The two decimal rounding commutes with adding one. -/
theorem roundTo2_add_one (a : ℚ) : roundTo2 (a + 1) = roundTo2 a + 1 := by
  unfold roundTo2
  have h : (100 : ℚ) * (a + 1) = 100 * a + ((100 : ℤ) : ℚ) := by
    push_cast
    ring
  rw [h, round_add_int]
  push_cast
  ring

/-- The two decimal rounding of a non negative rational is non negative. -/
theorem roundTo2_nonneg {a : ℚ} (h : 0 ≤ a) : 0 ≤ roundTo2 a := by
  have h1 : roundTo2 0 ≤ roundTo2 a := roundTo2_mono h
  have h2 : roundTo2 0 = 0 := by
    unfold roundTo2
    norm_num
  linarith

/-- Unfolding of the start second of a sampled video frame. -/
theorem videoStartSec_eq (fps : ℚ) (interval i : ℕ) :
    videoStartSec fps interval i = (⌊roundTo2 ((i : ℚ) / fps)⌋).toNat := rfl

/-- Unfolding of the end second of a sampled video frame. -/
theorem videoEndSec_eq (fps : ℚ) (interval i : ℕ) :
    videoEndSec fps interval i
      = (⌊roundTo2 ((i : ℚ) / fps) + (interval : ℚ)⌋).toNat := rfl

/-- The start second is monotone in the frame index. -/
theorem videoStartSec_mono (fps : ℚ) (interval : ℕ) {i j : ℕ} (hfps : 0 < fps)
    (hij : i ≤ j) : videoStartSec fps interval i ≤ videoStartSec fps interval j := by
  rw [videoStartSec_eq, videoStartSec_eq]
  have hij2 : (i : ℚ) ≤ (j : ℚ) := by exact_mod_cast hij
  have h1 : (i : ℚ) / fps ≤ (j : ℚ) / fps := by gcongr
  have h2 := Int.floor_le_floor (roundTo2_mono h1)
  omega

/-- The start second strictly increases across a gap of at least fps frames. -/
theorem videoStartSec_lt_of_add_fps_le (fps : ℚ) (interval : ℕ) {i j : ℕ}
    (hfps : 0 < fps) (hf : (i : ℚ) + fps ≤ (j : ℚ)) :
    videoStartSec fps interval i < videoStartSec fps interval j := by
  rw [videoStartSec_eq, videoStartSec_eq]
  have hij : (i : ℚ) / fps + 1 ≤ (j : ℚ) / fps := by
    have h1 : ((i : ℚ) + fps) / fps ≤ (j : ℚ) / fps := by
      gcongr
    have h2 : ((i : ℚ) + fps) / fps = (i : ℚ) / fps + 1 := by
      field_simp
    linarith
  have hr : roundTo2 ((i : ℚ) / fps) + 1 ≤ roundTo2 ((j : ℚ) / fps) := by
    have h3 := roundTo2_mono hij
    rw [roundTo2_add_one] at h3
    linarith
  have hfl : ⌊roundTo2 ((i : ℚ) / fps)⌋ + 1 ≤ ⌊roundTo2 ((j : ℚ) / fps)⌋ := by
    have h4 : ((⌊roundTo2 ((i : ℚ) / fps)⌋ + 1 : ℤ) : ℚ) ≤ roundTo2 ((j : ℚ) / fps) := by
      have h5 := Int.floor_le (roundTo2 ((i : ℚ) / fps))
      push_cast
      linarith
    exact Int.le_floor.mpr h4
  have hnn : 0 ≤ ⌊roundTo2 ((i : ℚ) / fps)⌋ :=
    Int.floor_nonneg.mpr (roundTo2_nonneg (by positivity))
  omega

/-- The hypotheses of the ordering theorems hold for the step the source
computes, round(fps times the sampling interval), whenever fps is at least
one half (below that the rounded step is zero and the source loop never
terminates). -/
theorem video_step_dominates_fps (fps : ℚ) (h : 1 / 2 ≤ fps) :
    0 < fps ∧ fps ≤ (((round (fps * (SAMPLING_INTERVAL : ℚ))).toNat : ℕ) : ℚ) := by
  have hfps : 0 < fps := by linarith
  have hsi : ((SAMPLING_INTERVAL : ℕ) : ℚ) = 2 := by norm_num [SAMPLING_INTERVAL]
  have hround : fps ≤ ((round (fps * (SAMPLING_INTERVAL : ℚ)) : ℤ) : ℚ) := by
    have habs := abs_sub_round (fps * (SAMPLING_INTERVAL : ℚ))
    rw [hsi] at habs ⊢
    have : fps * 2 - ((round (fps * 2) : ℤ) : ℚ) ≤ 1 / 2 := by
      have := abs_le.mp habs
      linarith [this.2]
    linarith
  refine ⟨hfps, le_trans hround ?_⟩
  exact_mod_cast Int.self_le_toNat _

/-- C8 counterexample: at frame index 749 with fps 250 the ratio is 2.996,
whose two decimal rounding is 3.00, so the yielded start second is 3 while
the floor of the ratio is 2. -/
theorem c8_counterexample_not_floor :
    videoStartSec 250 SAMPLING_INTERVAL 749 = 3 ∧ ⌊(749 : ℚ) / 250⌋ = 2 ∧
      videoStartSec 250 SAMPLING_INTERVAL 749 ≠ (⌊(749 : ℚ) / 250⌋).toNat := by
  have key : videoStartSec 250 SAMPLING_INTERVAL 749 = 3 := by
    rw [videoStartSec_eq]
    have h1 : roundTo2 (((749 : ℕ) : ℚ) / 250) = 3 := by
      unfold roundTo2
      have h2 : (100 : ℚ) * (((749 : ℕ) : ℚ) / 250) = 1498 / 5 := by
        push_cast
        norm_num
      rw [h2]
      have h3 : round ((1498 : ℚ) / 5) = 300 := by
        rw [round_eq]
        have h4 : (1498 : ℚ) / 5 + 1 / 2 = 3001 / 10 := by norm_num
        rw [h4]
        have h5 : ⌊(3001 : ℚ) / 10⌋ = 300 := by
          rw [Int.floor_eq_iff]
          constructor
          · push_cast
            norm_num
          · push_cast
            norm_num
        exact h5
      rw [h3]
      norm_num
    rw [h1]
    have h6 : ⌊(3 : ℚ)⌋ = 3 := by norm_num
    rw [h6]
    decide
  have key2 : ⌊(749 : ℚ) / 250⌋ = 2 := by
    rw [Int.floor_eq_iff]
    constructor
    · push_cast
      norm_num
    · push_cast
      norm_num
  refine ⟨key, key2, ?_⟩
  rw [key, key2]
  decide

/-- C8 amended: the yielded pair is (s, s + interval) where s is the int
truncation of round(i/fps, 2) - the two decimal rounding of i/fps; s equals
the floor of i/fps whenever the rounding does not carry into the next
integer, in particular whenever the fractional part of i/fps is below
199/200, but not for every index and fps (see the counterexample at index 749
with fps 250). -/
theorem c8_timestamp_pair_amended (fps : ℚ) (interval i : ℕ) (hfps : 0 < fps)
    (hfract : Int.fract ((i : ℚ) / fps) < 199 / 200) :
    videoStartSec fps interval i = (⌊(i : ℚ) / fps⌋).toNat ∧
      videoEndSec fps interval i = videoStartSec fps interval i + interval := by
  have hq : (0 : ℚ) ≤ (i : ℚ) / fps := by positivity
  have hr0 : 0 ≤ roundTo2 ((i : ℚ) / fps) := roundTo2_nonneg hq
  have hrfl : 0 ≤ ⌊roundTo2 ((i : ℚ) / fps)⌋ := Int.floor_nonneg.mpr hr0
  constructor
  · have hf0 : 0 ≤ Int.fract ((i : ℚ) / fps) := Int.fract_nonneg _
    have hsplit : ((⌊(i : ℚ) / fps⌋ : ℚ) + Int.fract ((i : ℚ) / fps)) = (i : ℚ) / fps :=
      Int.floor_add_fract _
    have hkey : round (100 * ((i : ℚ) / fps))
        = 100 * ⌊(i : ℚ) / fps⌋ + ⌊100 * Int.fract ((i : ℚ) / fps) + 1 / 2⌋ := by
      rw [round_eq]
      have harr : 100 * ((i : ℚ) / fps) + 1 / 2
          = ((100 * ⌊(i : ℚ) / fps⌋ : ℤ) : ℚ)
            + (100 * Int.fract ((i : ℚ) / fps) + 1 / 2) := by
        push_cast
        linarith
      rw [harr, Int.floor_int_add]
    have hm0 : 0 ≤ ⌊100 * Int.fract ((i : ℚ) / fps) + 1 / 2⌋ :=
      Int.floor_nonneg.mpr (by linarith)
    have hm99 : ⌊100 * Int.fract ((i : ℚ) / fps) + 1 / 2⌋ < 100 := by
      apply Int.floor_lt.mpr
      push_cast
      linarith
    have hm0q : (0 : ℚ) ≤ ((⌊100 * Int.fract ((i : ℚ) / fps) + 1 / 2⌋ : ℤ) : ℚ) := by
      exact_mod_cast hm0
    have hm99q : ((⌊100 * Int.fract ((i : ℚ) / fps) + 1 / 2⌋ : ℤ) : ℚ) < 100 := by
      exact_mod_cast hm99
    have hfloor : ⌊roundTo2 ((i : ℚ) / fps)⌋ = ⌊(i : ℚ) / fps⌋ := by
      unfold roundTo2
      rw [hkey]
      rw [Int.floor_eq_iff]
      constructor
      · rw [le_div_iff (by norm_num : (0 : ℚ) < 100)]
        push_cast
        linarith
      · rw [div_lt_iff (by norm_num : (0 : ℚ) < 100)]
        push_cast
        linarith
    rw [videoStartSec_eq, hfloor]
  · rw [videoEndSec_eq, videoStartSec_eq, Int.floor_add_nat]
    omega

/-- Witness for the amended C8 at frame index 60 with fps 30. -/
theorem c8_timestamp_pair_amended_witness :
    ((0 : ℚ) < 30 ∧ Int.fract (((60 : ℕ) : ℚ) / 30) < 199 / 200) ∧
      (videoStartSec 30 2 60 = (⌊((60 : ℕ) : ℚ) / 30⌋).toNat ∧
        videoEndSec 30 2 60 = videoStartSec 30 2 60 + 2) := by
  have hfr : Int.fract (((60 : ℕ) : ℚ) / 30) < 199 / 200 := by
    have h : ((60 : ℕ) : ℚ) / 30 = 2 := by norm_num
    rw [h, Int.fract]
    have h2 : ⌊(2 : ℚ)⌋ = 2 := by norm_num
    rw [h2]
    norm_num
  exact ⟨⟨by norm_num, hfr⟩, c8_timestamp_pair_amended 30 2 60 (by norm_num) hfr⟩

/-- videoRetainedAux stops when the index passes the frame count or the
step is degenerate. -/
theorem videoRetainedAux_stop (ssim : Img → Img → ℚ) (readFrame : ℕ → Option Img)
    (fps : ℚ) (interval : ℕ) (threshold : ℚ) (bypass : Bool) (fc Δ i : ℕ)
    (m : Option Img) (h : ¬(i < fc ∧ 1 ≤ Δ)) :
    videoRetainedAux ssim readFrame fps interval threshold bypass fc Δ i m = [] := by
  rw [videoRetainedAux, dif_neg h]

/-- videoRetainedAux stops at a failed read. -/
theorem videoRetainedAux_read_fail (ssim : Img → Img → ℚ)
    (readFrame : ℕ → Option Img) (fps : ℚ) (interval : ℕ) (threshold : ℚ)
    (bypass : Bool) (fc Δ i : ℕ) (m : Option Img) (h1 : i < fc) (h2 : 1 ≤ Δ)
    (hread : readFrame (min i (fc - 1)) = none) :
    videoRetainedAux ssim readFrame fps interval threshold bypass fc Δ i m = [] := by
  rw [videoRetainedAux, dif_pos ⟨h1, h2⟩, hread]

/-- videoRetainedAux discards a similar candidate and keeps the reference. -/
theorem videoRetainedAux_skip (ssim : Img → Img → ℚ) (readFrame : ℕ → Option Img)
    (fps : ℚ) (interval : ℕ) (threshold : ℚ) (bypass : Bool) (fc Δ i : ℕ)
    (m : Option Img) (frame : Img) (h1 : i < fc) (h2 : 1 ≤ Δ)
    (hread : readFrame (min i (fc - 1)) = some frame)
    (hsim : is_similar_frame ssim m frame threshold bypass = true) :
    videoRetainedAux ssim readFrame fps interval threshold bypass fc Δ i m
      = videoRetainedAux ssim readFrame fps interval threshold bypass fc Δ
        (i + Δ) m := by
  rw [videoRetainedAux, dif_pos ⟨h1, h2⟩, hread]
  simp [hsim]

/-- videoRetainedAux keeps a dissimilar candidate and moves the reference. -/
theorem videoRetainedAux_keep (ssim : Img → Img → ℚ) (readFrame : ℕ → Option Img)
    (fps : ℚ) (interval : ℕ) (threshold : ℚ) (bypass : Bool) (fc Δ i : ℕ)
    (m : Option Img) (frame : Img) (h1 : i < fc) (h2 : 1 ≤ Δ)
    (hread : readFrame (min i (fc - 1)) = some frame)
    (hsim : is_similar_frame ssim m frame threshold bypass = false) :
    videoRetainedAux ssim readFrame fps interval threshold bypass fc Δ i m
      = make_frame_record frame (videoStartSec fps interval i)
          (videoEndSec fps interval i)
        :: videoRetainedAux ssim readFrame fps interval threshold bypass fc Δ
          (i + Δ) (some frame) := by
  rw [videoRetainedAux, dif_pos ⟨h1, h2⟩, hread]
  simp [hsim]

/-- Every record retained from index i onward starts no earlier than the
start second of index i. -/
theorem videoRetainedAux_start_lb (ssim : Img → Img → ℚ)
    (readFrame : ℕ → Option Img) (fps : ℚ) (interval : ℕ) (threshold : ℚ)
    (bypass : Bool) (fc Δ : ℕ) (hfps : 0 < fps) (i : ℕ) (m : Option Img) :
    ∀ r ∈ videoRetainedAux ssim readFrame fps interval threshold bypass fc Δ i m,
      videoStartSec fps interval i ≤ r.start_time := by
  intro r hr
  by_cases h : i < fc ∧ 1 ≤ Δ
  · cases hread : readFrame (min i (fc - 1)) with
    | none =>
      rw [videoRetainedAux_read_fail ssim readFrame fps interval threshold bypass
        fc Δ i m h.1 h.2 hread] at hr
      simp at hr
    | some frame =>
      cases hsim : is_similar_frame ssim m frame threshold bypass with
      | true =>
        rw [videoRetainedAux_skip ssim readFrame fps interval threshold bypass
          fc Δ i m frame h.1 h.2 hread hsim] at hr
        have hrec := videoRetainedAux_start_lb ssim readFrame fps interval threshold
          bypass fc Δ hfps (i + Δ) m r hr
        have hmono := videoStartSec_mono fps interval hfps (Nat.le_add_right i Δ)
        omega
      | false =>
        rw [videoRetainedAux_keep ssim readFrame fps interval threshold bypass
          fc Δ i m frame h.1 h.2 hread hsim] at hr
        rcases List.mem_cons.mp hr with hhead | htail
        · rw [hhead]
          simp [make_frame_record]
        · have hrec := videoRetainedAux_start_lb ssim readFrame fps interval
            threshold bypass fc Δ hfps (i + Δ) (some frame) r htail
          have hmono := videoStartSec_mono fps interval hfps (Nat.le_add_right i Δ)
          omega
  · rw [videoRetainedAux_stop ssim readFrame fps interval threshold bypass
      fc Δ i m h] at hr
    simp at hr
termination_by fc - i
decreasing_by all_goals omega

/-- The retained video records from any index on are strictly increasing in
start second, provided the index step dominates fps. -/
theorem videoRetainedAux_chain (ssim : Img → Img → ℚ)
    (readFrame : ℕ → Option Img) (fps : ℚ) (interval : ℕ) (threshold : ℚ)
    (bypass : Bool) (fc Δ : ℕ) (hfps : 0 < fps) (hstep : fps ≤ (Δ : ℚ))
    (i : ℕ) (m : Option Img) :
    List.Chain' (fun r1 r2 => r1.start_time < r2.start_time)
      (videoRetainedAux ssim readFrame fps interval threshold bypass fc Δ i m) := by
  by_cases h : i < fc ∧ 1 ≤ Δ
  · cases hread : readFrame (min i (fc - 1)) with
    | none =>
      rw [videoRetainedAux_read_fail ssim readFrame fps interval threshold bypass
        fc Δ i m h.1 h.2 hread]
      exact List.chain'_nil
    | some frame =>
      cases hsim : is_similar_frame ssim m frame threshold bypass with
      | true =>
        rw [videoRetainedAux_skip ssim readFrame fps interval threshold bypass
          fc Δ i m frame h.1 h.2 hread hsim]
        exact videoRetainedAux_chain ssim readFrame fps interval threshold bypass
          fc Δ hfps hstep (i + Δ) m
      | false =>
        rw [videoRetainedAux_keep ssim readFrame fps interval threshold bypass
          fc Δ i m frame h.1 h.2 hread hsim]
        rw [List.chain'_cons']
        refine ⟨?_, videoRetainedAux_chain ssim readFrame fps interval threshold
          bypass fc Δ hfps hstep (i + Δ) (some frame)⟩
        intro y hy
        have hmem : y ∈ videoRetainedAux ssim readFrame fps interval threshold
            bypass fc Δ (i + Δ) (some frame) := List.mem_of_mem_head? hy
        have hlb := videoRetainedAux_start_lb ssim readFrame fps interval threshold
          bypass fc Δ hfps (i + Δ) (some frame) y hmem
        have hlt : videoStartSec fps interval i < videoStartSec fps interval (i + Δ) := by
          apply videoStartSec_lt_of_add_fps_le fps interval hfps
          push_cast
          linarith
        simp only [make_frame_record]
        omega
  · rw [videoRetainedAux_stop ssim readFrame fps interval threshold bypass fc Δ i m h]
    exact List.chain'_nil
termination_by fc - i
decreasing_by all_goals omega

/-- gifRetainedAux stops past the last frame. -/
theorem gifRetainedAux_stop (ssim : Img → Img → ℚ) (n : ℕ) (frames : ℕ → Img)
    (threshold : ℚ) (bypass : Bool) (i : ℕ) (m : Option Img) (h : ¬ i < n) :
    gifRetainedAux ssim n frames threshold bypass i m = [] := by
  rw [gifRetainedAux, dif_neg h]

/-- gifRetainedAux passes over an index that is not a sampling candidate. -/
theorem gifRetainedAux_offmod (ssim : Img → Img → ℚ) (n : ℕ) (frames : ℕ → Img)
    (threshold : ℚ) (bypass : Bool) (i : ℕ) (m : Option Img) (h : i < n)
    (hmod : ¬ i % SAMPLING_INTERVAL = 0) :
    gifRetainedAux ssim n frames threshold bypass i m
      = gifRetainedAux ssim n frames threshold bypass (i + 1) m := by
  rw [gifRetainedAux, dif_pos h]
  simp [hmod]

/-- gifRetainedAux discards a similar candidate. -/
theorem gifRetainedAux_skip (ssim : Img → Img → ℚ) (n : ℕ) (frames : ℕ → Img)
    (threshold : ℚ) (bypass : Bool) (i : ℕ) (m : Option Img) (h : i < n)
    (hmod : i % SAMPLING_INTERVAL = 0)
    (hsim : is_similar_frame ssim m (frames i) threshold bypass = true) :
    gifRetainedAux ssim n frames threshold bypass i m
      = gifRetainedAux ssim n frames threshold bypass (i + 1) m := by
  rw [gifRetainedAux, dif_pos h]
  simp [hmod, hsim]

/-- gifRetainedAux keeps a dissimilar candidate and moves the reference. -/
theorem gifRetainedAux_keep (ssim : Img → Img → ℚ) (n : ℕ) (frames : ℕ → Img)
    (threshold : ℚ) (bypass : Bool) (i : ℕ) (m : Option Img) (h : i < n)
    (hmod : i % SAMPLING_INTERVAL = 0)
    (hsim : is_similar_frame ssim m (frames i) threshold bypass = false) :
    gifRetainedAux ssim n frames threshold bypass i m
      = make_frame_record (frames i) i i
        :: gifRetainedAux ssim n frames threshold bypass (i + 1) (some (frames i)) := by
  rw [gifRetainedAux, dif_pos h]
  simp [hmod, hsim]

/-- Every record retained from GIF index i onward starts no earlier than i. -/
theorem gifRetainedAux_start_lb (ssim : Img → Img → ℚ) (n : ℕ) (frames : ℕ → Img)
    (threshold : ℚ) (bypass : Bool) (i : ℕ) (m : Option Img) :
    ∀ r ∈ gifRetainedAux ssim n frames threshold bypass i m, i ≤ r.start_time := by
  intro r hr
  by_cases h : i < n
  · by_cases hmod : i % SAMPLING_INTERVAL = 0
    · cases hsim : is_similar_frame ssim m (frames i) threshold bypass with
      | true =>
        rw [gifRetainedAux_skip ssim n frames threshold bypass i m h hmod hsim] at hr
        have hrec := gifRetainedAux_start_lb ssim n frames threshold bypass (i + 1) m r hr
        omega
      | false =>
        rw [gifRetainedAux_keep ssim n frames threshold bypass i m h hmod hsim] at hr
        rcases List.mem_cons.mp hr with hhead | htail
        · rw [hhead]
          simp [make_frame_record]
        · have hrec := gifRetainedAux_start_lb ssim n frames threshold bypass (i + 1)
            (some (frames i)) r htail
          omega
    · rw [gifRetainedAux_offmod ssim n frames threshold bypass i m h hmod] at hr
      have hrec := gifRetainedAux_start_lb ssim n frames threshold bypass (i + 1) m r hr
      omega
  · rw [gifRetainedAux_stop ssim n frames threshold bypass i m h] at hr
    simp at hr
termination_by n - i
decreasing_by all_goals omega

/-- The retained GIF records from any index on are strictly increasing in
their frame index stamp. -/
theorem gifRetainedAux_chain (ssim : Img → Img → ℚ) (n : ℕ) (frames : ℕ → Img)
    (threshold : ℚ) (bypass : Bool) (i : ℕ) (m : Option Img) :
    List.Chain' (fun r1 r2 => r1.start_time < r2.start_time)
      (gifRetainedAux ssim n frames threshold bypass i m) := by
  by_cases h : i < n
  · by_cases hmod : i % SAMPLING_INTERVAL = 0
    · cases hsim : is_similar_frame ssim m (frames i) threshold bypass with
      | true =>
        rw [gifRetainedAux_skip ssim n frames threshold bypass i m h hmod hsim]
        exact gifRetainedAux_chain ssim n frames threshold bypass (i + 1) m
      | false =>
        rw [gifRetainedAux_keep ssim n frames threshold bypass i m h hmod hsim]
        rw [List.chain'_cons']
        refine ⟨?_, gifRetainedAux_chain ssim n frames threshold bypass (i + 1)
          (some (frames i))⟩
        intro y hy
        have hmem : y ∈ gifRetainedAux ssim n frames threshold bypass (i + 1)
            (some (frames i)) := List.mem_of_mem_head? hy
        have hlb := gifRetainedAux_start_lb ssim n frames threshold bypass (i + 1)
          (some (frames i)) y hmem
        simp only [make_frame_record]
        omega
    · rw [gifRetainedAux_offmod ssim n frames threshold bypass i m h hmod]
      exact gifRetainedAux_chain ssim n frames threshold bypass (i + 1) m
  · rw [gifRetainedAux_stop ssim n frames threshold bypass i m h]
    exact List.chain'_nil
termination_by n - i
decreasing_by all_goals omega

/-- C9: within one media file pipeline the retained frame records are
strictly increasing in start_time: for a video stream whenever the index step
dominates fps - which holds for the step round(fps times the sampling
interval) the source computes whenever fps is at least one half, see
video_step_dominates_fps; smaller fps make the source loop diverge - and for
a GIF stream unconditionally. -/
theorem c9_retained_start_times_increase (ssim : Img → Img → ℚ)
    (readFrame : ℕ → Option Img) (fps threshold : ℚ)
    (interval frame_count frame_interval n_frames : ℕ) (frames : ℕ → Img)
    (bypass : Bool) (hfps : 0 < fps) (hstep : fps ≤ (frame_interval : ℚ)) :
    List.Chain' (fun r1 r2 => r1.start_time < r2.start_time)
        (videoRetainedAux ssim readFrame fps interval threshold bypass
          frame_count frame_interval 0 none) ∧
      List.Chain' (fun r1 r2 => r1.start_time < r2.start_time)
        (gifRetainedAux ssim n_frames frames threshold bypass 0 none) :=
  ⟨videoRetainedAux_chain ssim readFrame fps interval threshold bypass
      frame_count frame_interval hfps hstep 0 none,
    gifRetainedAux_chain ssim n_frames frames threshold bypass 0 none⟩

/-- Witness for C9 at fps 1 with step 2 over a short stream. -/
theorem c9_retained_start_times_increase_witness :
    ((0 : ℚ) < 1 ∧ (1 : ℚ) ≤ ((2 : ℕ) : ℚ)) ∧
      (List.Chain' (fun r1 r2 => r1.start_time < r2.start_time)
          (videoRetainedAux (fun _ _ => 0) (fun _ => some unitImg) 1 2 0 false
            3 2 0 none) ∧
        List.Chain' (fun r1 r2 => r1.start_time < r2.start_time)
          (gifRetainedAux (fun _ _ => 0) 2 (fun _ => unitImg) 0 false 0 none)) :=
  ⟨⟨by norm_num, by norm_num⟩,
    c9_retained_start_times_increase (fun _ _ => 0) (fun _ => some unitImg) 1 0
      2 3 2 2 (fun _ => unitImg) false (by norm_num) (by norm_num)⟩

/-- Every batch fits in the square of its ceiling square root. -/
theorem le_ceilSqrt_sq (n : ℕ) : n ≤ ceilSqrt n ^ 2 := by
  unfold ceilSqrt
  by_cases h : n = 0
  · simp [h]
  · rw [if_neg h]
    have h1 := Nat.lt_succ_sqrt' (n - 1)
    rw [Nat.succ_eq_add_one] at h1
    generalize hS : (Nat.sqrt (n - 1) + 1) ^ 2 = S at h1 ⊢
    omega

/-- The ceiling square root of a batch that fits in the square of N is at
most N. -/
theorem ceilSqrt_le_of_le_sq {n N : ℕ} (hn : 1 ≤ n) (h : n ≤ N ^ 2) :
    ceilSqrt n ≤ N := by
  unfold ceilSqrt
  rw [if_neg (by omega)]
  have h1 : Nat.sqrt (n - 1) < N := by
    rw [Nat.sqrt_lt']
    generalize hS : N ^ 2 = S at h
    omega
  omega

/-- The ceiling square root of a positive number is positive. -/
theorem ceilSqrt_pos {n : ℕ} (hn : 1 ≤ n) : 1 ≤ ceilSqrt n := by
  unfold ceilSqrt
  rw [if_neg (by omega)]
  omega

/-- Characterization of natural division by the containing aligned box. -/
theorem div_eq_iff_between (x c w : ℕ) (hw : 0 < w) :
    x / w = c ↔ (c * w ≤ x ∧ x < c * w + w) := by
  constructor
  · intro h
    subst h
    have hdm := Nat.div_add_mod x w
    rw [Nat.mul_comm w (x / w)] at hdm
    have hm := Nat.mod_lt x hw
    omega
  · intro hb
    have hi : x < Nat.succ c * w := by
      rw [Nat.succ_mul]
      exact hb.2
    exact Nat.div_eq_of_lt_le hb.1 hi

/-- Pasting frames never changes the canvas dimensions. -/
theorem foldl_paste_dims (l : List (ℕ × Img)) (g : Img) (fw fh side : ℕ) :
    ((l.foldl (fun grid p =>
        pasteImg grid p.2 ((p.1 % side) * fw) ((p.1 / side) * fh)) g).w = g.w ∧
      (l.foldl (fun grid p =>
        pasteImg grid p.2 ((p.1 % side) * fw) ((p.1 / side) * fh)) g).h = g.h) := by
  induction l generalizing g with
  | nil => exact ⟨rfl, rfl⟩
  | cons a l ih =>
    rw [List.foldl_cons]
    exact ih _

/-- Reading one pixel of the enumerated paste fold: the cell holding the
pixel shows the frame whose enumeration index names that cell, and pixels
whose cell was never pasted show the underlying canvas. -/
theorem foldl_paste_pix (fw fh side : ℕ) (hfw : 0 < fw) (hfh : 0 < fh)
    (l : List Img) (k : ℕ) (g : Img) (x y : ℕ)
    (hsize : ∀ img ∈ l, img.w = fw ∧ img.h = fh)
    (hx : x / fw < side) :
    ((List.enumFrom k l).foldl (fun grid p =>
        pasteImg grid p.2 ((p.1 % side) * fw) ((p.1 / side) * fh)) g).pix x y
      = if k ≤ (y / fh) * side + x / fw ∧ (y / fh) * side + x / fw < k + l.length
        then (l.getD ((y / fh) * side + x / fw - k) unitImg).pix (x % fw) (y % fh)
        else g.pix x y := by
  induction l generalizing k g with
  | nil =>
    rw [show List.enumFrom k ([] : List Img) = [] from rfl]
    rw [List.foldl_nil, List.length_nil]
    rw [if_neg (by omega)]
  | cons a l ih =>
    rw [List.enumFrom_cons, List.foldl_cons, List.length_cons]
    have hsz := hsize a (List.mem_cons_self a l)
    have ihs : ∀ img ∈ l, img.w = fw ∧ img.h = fh :=
      fun img him => hsize img (List.mem_cons_of_mem a him)
    rw [ih (k + 1) (pasteImg g a ((k % side) * fw) ((k / side) * fh)) ihs]
    have hside : 0 < side := Nat.lt_of_le_of_lt (Nat.zero_le (x / fw)) hx
    by_cases hj : (y / fh) * side + x / fw = k
    · rw [if_neg (by omega), if_pos (by omega)]
      rw [show (y / fh) * side + x / fw - k = 0 from by omega, List.getD_cons_zero]
      have hxc : k % side = x / fw := by
        rw [← hj, Nat.mul_comm (y / fh) side, Nat.mul_add_mod]
        exact Nat.mod_eq_of_lt hx
      have hyc : k / side = y / fh := by
        rw [← hj, Nat.mul_comm (y / fh) side, Nat.mul_add_div hside]
        rw [Nat.div_eq_of_lt hx]
        omega
      simp only [pasteImg]
      rw [hxc, hyc, hsz.1, hsz.2]
      have hdmx := Nat.div_add_mod x fw
      have hdmy := Nat.div_add_mod y fh
      rw [Nat.mul_comm fw (x / fw)] at hdmx
      rw [Nat.mul_comm fh (y / fh)] at hdmy
      have hmx := Nat.mod_lt x hfw
      have hmy := Nat.mod_lt y hfh
      rw [if_pos ⟨by omega, by omega, by omega, by omega⟩]
      have hx1 : x - x / fw * fw = x % fw := by omega
      have hy1 : y - y / fh * fh = y % fh := by omega
      rw [hx1, hy1]
    · have hnotbox : ¬((k % side) * fw ≤ x ∧ x < (k % side) * fw + a.w
          ∧ (k / side) * fh ≤ y ∧ y < (k / side) * fh + a.h) := by
        rw [hsz.1, hsz.2]
        intro hbox
        apply hj
        have hcx : x / fw = k % side :=
          (div_eq_iff_between x (k % side) fw hfw).mpr ⟨hbox.1, hbox.2.1⟩
        have hcy : y / fh = k / side :=
          (div_eq_iff_between y (k / side) fh hfh).mpr ⟨hbox.2.2.1, hbox.2.2.2⟩
        rw [hcx, hcy, Nat.mul_comm]
        exact Nat.div_add_mod k side
      by_cases hrange : k ≤ (y / fh) * side + x / fw
          ∧ (y / fh) * side + x / fw < k + (l.length + 1)
      · rw [if_pos (by omega), if_pos hrange]
        rw [show (y / fh) * side + x / fw - k
          = ((y / fh) * side + x / fw - (k + 1)) + 1 from by omega]
        rw [List.getD_cons_succ]
      · rw [if_neg (by omega), if_neg hrange]
        simp only [pasteImg]
        rw [if_neg hnotbox]

/-- create_grid on a non empty batch is the enumerated paste fold over a
white canvas of the optimal cell dimension. -/
theorem create_grid_eq_fold (images : List Img) (fw fh N : ℕ)
    (hne : ¬ images.length = 0) :
    create_grid images fw fh N
      = (List.enumFrom 0 images).foldl (fun grid p =>
          pasteImg grid p.2 ((p.1 % (min N (ceilSqrt images.length))) * fw)
            ((p.1 / (min N (ceilSqrt images.length))) * fh))
        { w := (min N (ceilSqrt images.length)) * fw
          h := (min N (ceilSqrt images.length)) * fh
          pix := fun _ _ => white } := by
  rw [create_grid, if_neg hne]
  rfl

/-- C4: for a non empty batch of M frames of common size fw by fh, with M at
most N squared and N at least one, create_grid renders a composite of side
min(N, ceilSqrt M) cells - and that minimum equals ceilSqrt M - of pixel size
side times fw by side times fh; frame number idx occupies the cell in row
idx / side and column idx % side, counting row major from the top left, and
every cell whose row major index reaches M keeps the white background color
at each of its pixels. -/
theorem c4_grid_sizing_law (images : List Img) (fw fh N idx dx dy r c : ℕ)
    (hfw : 0 < fw) (hfh : 0 < fh) (hN : 1 ≤ N)
    (hM1 : 1 ≤ images.length) (hMN : images.length ≤ N ^ 2)
    (hsize : ∀ img ∈ images, img.w = fw ∧ img.h = fh)
    (hidx : idx < images.length) (hdx : dx < fw) (hdy : dy < fh)
    (hr : r < min N (ceilSqrt images.length))
    (hc : c < min N (ceilSqrt images.length))
    (hblank : images.length ≤ r * min N (ceilSqrt images.length) + c) :
    min N (ceilSqrt images.length) = ceilSqrt images.length ∧
      (create_grid images fw fh N).w = min N (ceilSqrt images.length) * fw ∧
      (create_grid images fw fh N).h = min N (ceilSqrt images.length) * fh ∧
      (create_grid images fw fh N).pix
          ((idx % min N (ceilSqrt images.length)) * fw + dx)
          ((idx / min N (ceilSqrt images.length)) * fh + dy)
        = (images.get ⟨idx, hidx⟩).pix dx dy ∧
      (create_grid images fw fh N).pix (c * fw + dx) (r * fh + dy) = white := by
  have hceil_le : ceilSqrt images.length ≤ N := ceilSqrt_le_of_le_sq hM1 hMN
  have hmin : min N (ceilSqrt images.length) = ceilSqrt images.length :=
    min_eq_right hceil_le
  have hside1 : 1 ≤ min N (ceilSqrt images.length) := by
    rw [hmin]
    exact ceilSqrt_pos hM1
  have hMs : images.length ≤ min N (ceilSqrt images.length) ^ 2 := by
    rw [hmin]
    exact le_ceilSqrt_sq _
  have hne : ¬ images.length = 0 := by omega
  refine ⟨hmin, ?_, ?_, ?_, ?_⟩
  · rw [create_grid_eq_fold images fw fh N hne]
    exact (foldl_paste_dims _ _ _ _ _).1
  · rw [create_grid_eq_fold images fw fh N hne]
    exact (foldl_paste_dims _ _ _ _ _).2
  · rw [create_grid_eq_fold images fw fh N hne]
    have hmodlt : idx % min N (ceilSqrt images.length) < min N (ceilSqrt images.length) :=
      Nat.mod_lt idx (by omega)
    have hxdiv : ((idx % min N (ceilSqrt images.length)) * fw + dx) / fw
        = idx % min N (ceilSqrt images.length) := by
      rw [Nat.mul_comm _ fw, Nat.mul_add_div hfw, Nat.div_eq_of_lt hdx]
      omega
    have hxmod : ((idx % min N (ceilSqrt images.length)) * fw + dx) % fw = dx := by
      rw [Nat.mul_comm _ fw, Nat.mul_add_mod, Nat.mod_eq_of_lt hdx]
    have hydiv : ((idx / min N (ceilSqrt images.length)) * fh + dy) / fh
        = idx / min N (ceilSqrt images.length) := by
      rw [Nat.mul_comm _ fh, Nat.mul_add_div hfh, Nat.div_eq_of_lt hdy]
      omega
    have hymod : ((idx / min N (ceilSqrt images.length)) * fh + dy) % fh = dy := by
      rw [Nat.mul_comm _ fh, Nat.mul_add_mod, Nat.mod_eq_of_lt hdy]
    rw [foldl_paste_pix fw fh (min N (ceilSqrt images.length)) hfw hfh images 0 _ _ _
      hsize (by rw [hxdiv]; exact hmodlt)]
    rw [hxdiv, hxmod, hydiv, hymod]
    have hj : idx / min N (ceilSqrt images.length) * min N (ceilSqrt images.length)
        + idx % min N (ceilSqrt images.length) = idx := by
      rw [Nat.mul_comm]
      exact Nat.div_add_mod idx _
    rw [hj, if_pos ⟨by omega, by omega⟩, Nat.sub_zero]
    rw [List.getD_eq_get images unitImg hidx]
  · rw [create_grid_eq_fold images fw fh N hne]
    have hxdiv : (c * fw + dx) / fw = c := by
      rw [Nat.mul_comm _ fw, Nat.mul_add_div hfw, Nat.div_eq_of_lt hdx]
      omega
    have hydiv : (r * fh + dy) / fh = r := by
      rw [Nat.mul_comm _ fh, Nat.mul_add_div hfh, Nat.div_eq_of_lt hdy]
      omega
    rw [foldl_paste_pix fw fh (min N (ceilSqrt images.length)) hfw hfh images 0 _ _ _
      hsize (by rw [hxdiv]; exact hc)]
    rw [hxdiv, hydiv]
    rw [if_neg (by omega)]

/-- Witness for C4: two unit frames with maximum dimension three render on a
two by two canvas with the bottom left cell blank. -/
theorem c4_grid_sizing_law_witness :
    (0 < 1 ∧ 1 ≤ 3 ∧ 1 ≤ ([unitImg, unitImg] : List Img).length ∧
        ([unitImg, unitImg] : List Img).length ≤ 3 ^ 2 ∧
        0 < ([unitImg, unitImg] : List Img).length ∧
        1 < min 3 (ceilSqrt ([unitImg, unitImg] : List Img).length) ∧
        ([unitImg, unitImg] : List Img).length
          ≤ 1 * min 3 (ceilSqrt ([unitImg, unitImg] : List Img).length) + 0) ∧
      (min 3 (ceilSqrt ([unitImg, unitImg] : List Img).length)
          = ceilSqrt ([unitImg, unitImg] : List Img).length ∧
        (create_grid [unitImg, unitImg] 1 1 3).w
          = min 3 (ceilSqrt ([unitImg, unitImg] : List Img).length) * 1 ∧
        (create_grid [unitImg, unitImg] 1 1 3).h
          = min 3 (ceilSqrt ([unitImg, unitImg] : List Img).length) * 1 ∧
        (create_grid [unitImg, unitImg] 1 1 3).pix
            ((0 % min 3 (ceilSqrt ([unitImg, unitImg] : List Img).length)) * 1 + 0)
            ((0 / min 3 (ceilSqrt ([unitImg, unitImg] : List Img).length)) * 1 + 0)
          = (([unitImg, unitImg] : List Img).get ⟨0, by decide⟩).pix 0 0 ∧
        (create_grid [unitImg, unitImg] 1 1 3).pix (0 * 1 + 0) (1 * 1 + 0) = white) :=
  ⟨⟨by decide, by decide, by decide, by decide, by decide, by decide, by decide⟩,
    c4_grid_sizing_law [unitImg, unitImg] 1 1 3 0 0 0 1 0 (by decide) (by decide)
      (by decide) (by decide) (by decide)
      (by intro img him; fin_cases him <;> exact ⟨rfl, rfl⟩)
      (by decide) (by decide) (by decide) (by decide) (by decide) (by decide)⟩

end VisualScout
